import Mathlib

/-!
Verification of the pessimistic upper-bound cardinality estimator and the
pessimistic operator-selection policy in `examples/pessimistic.py`
(classes `UpperBoundCardinalities` and `PessimisticOperators`).

The `postbound` library objects the example code uses (queries, predicates,
statistics, join trees, plan parameterizations, operator assignments) are
external collaborators; they are modelled here from the contracts stated in
the design document (data model and external-interface sections), while
the two classes of `pessimistic.py` themselves are translated line by line.
Python numeric semantics are kept: division by zero raises, so the
estimator is embedded as an `Except`-valued function.
-/

/-- A base relation identifier (`pb.TableReference`). -/
abbrev Table := String

/-- A column reference: a (table, name) pair (`pb.ColumnReference`). -/
structure ColumnReference where
  table : Table
  name : String
deriving DecidableEq

/-- Modelled from the spec: `pb.Cardinality` is a non-negative numeric value
or an explicit "unknown" sentinel. The numeric payload is a rational, since
Python division is true division. -/
inductive Cardinality where
  | unknown
  | value (q : ℚ)
deriving DecidableEq

/-- The exceptions the estimator body can raise: ambiguity signalled by
`pb.util.simplify` on a non-singleton column set, and Python
`ZeroDivisionError`. -/
inductive PbError where
  | ambiguousColumn
  | divisionByZero
deriving DecidableEq

deriving instance DecidableEq for Except

/-- Modelled from the spec: a join predicate links columns of two tables;
we record the set of columns it references. -/
structure JoinPredicate where
  columns : List ColumnReference
deriving DecidableEq

/-- Modelled from the spec: `predicate.columns_of(table)` returns the set of
columns of that table referenced by the predicate. -/
def JoinPredicate.columnsOf (p : JoinPredicate) (t : Table) : List ColumnReference :=
  p.columns.filter (fun c => c.table = t)

/-- A predicate references a table when it mentions at least one of its
columns. -/
def JoinPredicate.references (p : JoinPredicate) (t : Table) : Bool :=
  !(p.columnsOf t).isEmpty

/-- Modelled from the spec: `pb.SqlQuery` exposes the set of referenced
tables and the collection of join predicates. -/
structure SqlQuery where
  tables : List Table
  predicates : List JoinPredicate

/-- Modelled from the spec: `query.predicates().joins_between(a, b)` returns
an optional join predicate connecting the two tables. -/
def joinsBetween (q : SqlQuery) (a b : Table) : Option JoinPredicate :=
  q.predicates.find? (fun p => p.references a && p.references b)

/-- Modelled from the spec: `pb.util.simplify` collapses a collection to its
single element; the columns of a side "must collapse to exactly one column
per side or signal ambiguity". -/
def simplify {α : Type} : List α → Except PbError α
  | [x] => .ok x
  | _ => .error .ambiguousColumn

/-- Modelled from the spec: the statistics and cardinality collaborators of
`pb.Database`. `mcf c` is the frequency of the top entry of
`most_common_values(c, k=1)`; `filteredCard q t` is the filtered-subquery
cardinality estimate the method `filtered_card` delegates to
(`extract_query_fragment` plus `optimizer().cardinality_estimate`). -/
structure Database where
  mcf : ColumnReference → ℕ
  filteredCard : SqlQuery → Table → ℚ

/-- `UpperBoundCardinalities.filtered_card`: the (estimated) cardinality of a
base relation after all filters have been applied. -/
def filtered_card (db : Database) (query : SqlQuery) (table : Table) : ℚ :=
  db.filteredCard query table

/-- `UpperBoundCardinalities.calculate_estimate`, translated line by line:
return unknown unless exactly two tables are given; return unknown when no
join predicate connects them; simplify the columns of each side (raising on
ambiguity); fetch the most-common-value frequencies and filtered
cardinalities; compute
`min(lhs_card / lhs_mcf, rhs_card / rhs_mcf) * lhs_mcf * rhs_mcf`
(raising `ZeroDivisionError` when a frequency is zero). -/
def calculate_estimate (db : Database) (query : SqlQuery) (tables : List Table) :
    Except PbError Cardinality :=
  match tables with
  | [lhs, rhs] =>
    match joinsBetween query lhs rhs with
    | none => .ok .unknown
    | some join_predicate =>
      match simplify (join_predicate.columnsOf lhs), simplify (join_predicate.columnsOf rhs) with
      | .error e, _ => .error e
      | .ok _, .error e => .error e
      | .ok lhs_column, .ok rhs_column =>
        let lhs_mcf : ℕ := db.mcf lhs_column
        let rhs_mcf : ℕ := db.mcf rhs_column
        let lhs_card : ℚ := filtered_card db query lhs
        let rhs_card : ℚ := filtered_card db query rhs
        if lhs_mcf = 0 then .error .divisionByZero
        else if rhs_mcf = 0 then .error .divisionByZero
        else .ok (.value (min (lhs_card / lhs_mcf) (rhs_card / rhs_mcf) * lhs_mcf * rhs_mcf))
  | _ => .ok .unknown

/-- Modelled from the spec: `pb.LogicalJoinTree`, a binary tree of join
nodes whose leaves are base tables. -/
inductive JoinTree where
  | leaf (t : Table)
  | join (l r : JoinTree)
deriving DecidableEq

/-- Modelled from the spec: `join_order.iterjoins()` yields every join node
of the tree in a single depth-first pass. -/
def JoinTree.iterjoins : JoinTree → List JoinTree
  | .leaf _ => []
  | .join l r => l.iterjoins ++ r.iterjoins ++ [.join l r]

/-- Modelled from the spec: a node `is_base_join()` when both children are
leaf base relations. -/
def JoinTree.isBaseJoin : JoinTree → Bool
  | .join (.leaf _) (.leaf _) => true
  | _ => false

/-- Modelled from the spec: `node.tables()`, all base tables below a node. -/
def JoinTree.nodeTables : JoinTree → List Table
  | .leaf t => [t]
  | .join l r => l.nodeTables ++ r.nodeTables

/-- The ordered-mode candidate list of `generate_plan_parameters`:
`[join.tables() for join in join_order.iterjoins() if join.is_base_join()]`,
with the two tables of each base join unpacked as `lhs, rhs = base_join`. A base
join has exactly two leaf children, so the comprehension plus unpacking is
the following `filterMap`. -/
def basePairs (jt : JoinTree) : List (Table × Table) :=
  jt.iterjoins.filterMap fun j =>
    match j with
    | .join (.leaf a) (.leaf b) => some (a, b)
    | _ => none

/-- `itertools.combinations(query.tables(), 2)`: all unordered pairs, in
input order. -/
def combinations2 : List Table → List (Table × Table)
  | [] => []
  | t :: ts => (ts.map fun u => (t, u)) ++ combinations2 ts

/-- Modelled from the spec: `pb.PlanParameterization` maps table pairs to
cardinality hints; embedded as an association list in insertion order. -/
abbrev PlanParameterization := List ((Table × Table) × ℚ)

/-- Modelled from the spec: `pb.PlanParameterization()` starts empty. -/
def PlanParameterization.empty : PlanParameterization := []

/-- Modelled from the spec: `parameters.add_cardinality_hint(base_join, card)`
records the hint for the pair. -/
def add_cardinality_hint (params : PlanParameterization) (pair : Table × Table)
    (card : ℚ) : PlanParameterization :=
  params ++ [(pair, card)]

/-- Hint lookup for an unordered table pair: the keys are canonicalized per
the spec, so a stored pair matches in either orientation. -/
def lookupPair (params : PlanParameterization) (a b : Table) : Option ℚ :=
  (params.find? fun e =>
    (e.1.1 == a && e.1.2 == b) || (e.1.1 == b && e.1.2 == a)).map (fun e => e.2)

/-- One iteration of the loop body of
`UpperBoundCardinalities.generate_plan_parameters`: skip the pair when no
join predicate connects it (`continue`), otherwise recompute the upper
bound exactly as the loop does and add it as a cardinality hint. -/
def processPair (db : Database) (query : SqlQuery) (params : PlanParameterization)
    (pair : Table × Table) : Except PbError PlanParameterization :=
  match joinsBetween query pair.1 pair.2 with
  | none => .ok params
  | some join_predicate =>
    match simplify (join_predicate.columnsOf pair.1),
        simplify (join_predicate.columnsOf pair.2) with
    | .error e, _ => .error e
    | .ok _, .error e => .error e
    | .ok lhs_column, .ok rhs_column =>
      let lhs_mcf : ℕ := db.mcf lhs_column
      let rhs_mcf : ℕ := db.mcf rhs_column
      let lhs_card : ℚ := filtered_card db query pair.1
      let rhs_card : ℚ := filtered_card db query pair.2
      if lhs_mcf = 0 then .error .divisionByZero
      else if rhs_mcf = 0 then .error .divisionByZero
      else .ok (add_cardinality_hint params pair
        (min (lhs_card / lhs_mcf) (rhs_card / rhs_mcf) * lhs_mcf * rhs_mcf))

/-- The `for base_join in base_joins` loop as a fold over the candidate
pairs; an exception raised by one iteration aborts the call. -/
def processAll (db : Database) (query : SqlQuery) :
    List (Table × Table) → PlanParameterization → Except PbError PlanParameterization
  | [], params => .ok params
  | pair :: rest, params =>
    match processPair db query params pair with
    | .error e => .error e
    | .ok next => processAll db query rest next

/-- The candidate pairs of `generate_plan_parameters`: base joins of the
join order when one is given, otherwise all unordered pairs of the
tables of the query. -/
def planCandidates (query : SqlQuery) (join_order : Option JoinTree) :
    List (Table × Table) :=
  match join_order with
  | some jt => basePairs jt
  | none => combinations2 query.tables

/-- `UpperBoundCardinalities.generate_plan_parameters`: walk the candidate
pairs and collect an upper-bound cardinality hint for each connected pair. -/
def generate_plan_parameters (db : Database) (query : SqlQuery)
    (join_order : Option JoinTree) : Except PbError PlanParameterization :=
  processAll db query (planCandidates query join_order) PlanParameterization.empty

/-- One step of the spec-described default composition: delegate to
`calculate_estimate` for the pair, skip the unknown sentinel, record a
numeric result as a hint. Stated from the design note that
`generate_plan_parameters` should be derivable from `calculate_estimate`
via the join-tree walk. -/
def derivedProcessAll (db : Database) (query : SqlQuery) :
    List (Table × Table) → PlanParameterization → Except PbError PlanParameterization
  | [], params => .ok params
  | pair :: rest, params =>
    match calculate_estimate db query [pair.1, pair.2] with
    | .error e => .error e
    | .ok .unknown => derivedProcessAll db query rest params
    | .ok (.value v) =>
      derivedProcessAll db query rest (add_cardinality_hint params pair v)

/-- The spec-described derivation of plan parameters from
`calculate_estimate` over the same join-tree walk. -/
def derived_plan_parameters (db : Database) (query : SqlQuery)
    (join_order : Option JoinTree) : Except PbError PlanParameterization :=
  derivedProcessAll db query (planCandidates query join_order) PlanParameterization.empty

/-- `pb.JoinOperator`: the join-operator kinds the policy configures. -/
inductive JoinOperator where
  | NestedLoopJoin
  | HashJoin
  | SortMergeJoin
deriving DecidableEq

/-- Modelled from the spec: `pb.PhysicalOperatorAssignment`, a mapping from
join-operator kind to a global enabled flag. -/
structure PhysicalOperatorAssignment where
  globalSettings : List (JoinOperator × Bool)
deriving DecidableEq

/-- Modelled from the spec: a fresh `pb.PhysicalOperatorAssignment()` has no
settings. -/
def PhysicalOperatorAssignment.empty : PhysicalOperatorAssignment := ⟨[]⟩

/-- Modelled from the spec:
`assignment.set_operator_enabled_globally(op, flag)` updates the global
flag for the operator kind. -/
def set_operator_enabled_globally (a : PhysicalOperatorAssignment)
    (op : JoinOperator) (flag : Bool) : PhysicalOperatorAssignment :=
  ⟨(op, flag) :: a.globalSettings.filter (fun e => e.1 ≠ op)⟩

/-- The global flag recorded for an operator kind, when one is set. -/
def operatorEnabled (a : PhysicalOperatorAssignment) (op : JoinOperator) :
    Option Bool :=
  (a.globalSettings.find? fun e => e.1 = op).map (fun e => e.2)

/-- `PessimisticOperators.select_physical_operators`: disable nested-loop
join, enable hash join, disable sort-merge join, globally, ignoring the
query and the join order. -/
def select_physical_operators (query : SqlQuery) (join_order : Option JoinTree) :
    PhysicalOperatorAssignment :=
  let assignment := PhysicalOperatorAssignment.empty
  let assignment := set_operator_enabled_globally assignment .NestedLoopJoin false
  let assignment := set_operator_enabled_globally assignment .HashJoin true
  let assignment := set_operator_enabled_globally assignment .SortMergeJoin false
  assignment

/-- A left-deep join order: fold the remaining tables onto the first one,
each step joining the accumulated result with one fresh base table. -/
def leftDeep (t : Table) (ts : List Table) : JoinTree :=
  ts.foldl (fun acc u => .join acc (.leaf u)) (.leaf t)

/-- Join column of the example table R in the concrete scenario of the design document. -/
def exColR : ColumnReference := ⟨"R", "x"⟩

/-- Join column of the example table S in the concrete scenario of the design document. -/
def exColS : ColumnReference := ⟨"S", "y"⟩

/-- The equi-join predicate `R.x = S.y` of the concrete scenario. -/
def exPredicate : JoinPredicate := ⟨[exColR, exColS]⟩

/-- The two-table query of the concrete scenario. -/
def exQuery : SqlQuery := ⟨["R", "S"], [exPredicate]⟩

/-- The statistics of the concrete scenario: filtered cardinalities 500 for
R and 2000 for S, most-common-value frequencies 5 for `R.x` and 10 for
`S.y`. -/
def exDb : Database where
  mcf := fun c => if c = exColR then 5 else if c = exColS then 10 else 1
  filteredCard := fun _ t => if t = "R" then 500 else 2000

/-- A database whose statistics report most-common-value frequency 0 for
every column (empty filtered relations). -/
def exDbZero : Database where
  mcf := fun _ => 0
  filteredCard := fun _ _ => 500

/-- A database reporting most-common-value frequency 1 for every column
(no skew). -/
def exDbOne : Database where
  mcf := fun _ => 1
  filteredCard := fun _ t => if t = "R" then 500 else 2000

/-- A second join column on table R, used to build an ambiguous predicate. -/
def exColR2 : ColumnReference := ⟨"R", "z"⟩

/-- A predicate referencing two columns of R and one of S: ambiguous on the
R side. -/
def exPredicateAmb : JoinPredicate := ⟨[exColR, exColR2, exColS]⟩

/-- A query whose only join predicate is ambiguous on the R side. -/
def exQueryAmb : SqlQuery := ⟨["R", "S"], [exPredicateAmb]⟩

/-- A three-table query joining only R with S: the pairs (R,T) and (T,S)
have no join predicate. -/
def exQueryThree : SqlQuery := ⟨["R", "S", "T"], [exPredicate]⟩

/-- The same statistics as `exDb` but with larger filtered cardinalities
(600 and 3000) and identical most-common-value frequencies. -/
def exDbBig : Database where
  mcf := exDb.mcf
  filteredCard := fun _ t => if t = "R" then 600 else 3000

/-- The upper bound the estimator computes for the pair (R, S) of
`exQueryThree` against `exDb`, left in formula form. -/
def exBound : ℚ :=
  min (filtered_card exDb exQueryThree "R" / (exDb.mcf exColR : ℚ))
    (filtered_card exDb exQueryThree "S" / (exDb.mcf exColS : ℚ)) *
    (exDb.mcf exColR : ℚ) * (exDb.mcf exColS : ℚ)

/-- The plan parameterization produced for `exQueryThree` against `exDb`:
only the connected pair (R, S) receives a hint. -/
def exParams : PlanParameterization := [(("R", "S"), exBound)]

example : calculate_estimate exDb exQuery ["R", "S"] =
    .ok (.value (min (filtered_card exDb exQuery "R" / (exDb.mcf exColR : ℚ))
      (filtered_card exDb exQuery "S" / (exDb.mcf exColS : ℚ)) *
      (exDb.mcf exColR : ℚ) * (exDb.mcf exColS : ℚ))) := rfl
example : min ((500 : ℚ) / 5) (2000 / 10) * 5 * 10 = 5000 := by norm_num [min_def]
example : calculate_estimate exDbZero exQuery ["R", "S"] = .error .divisionByZero := by decide
example : calculate_estimate exDb exQueryAmb ["R", "S"] = .error .ambiguousColumn := by decide
example : calculate_estimate exDb exQuery ["R"] = .ok .unknown := by decide
example : calculate_estimate exDb exQueryThree ["R", "T"] = .ok .unknown := by decide
example : basePairs (leftDeep "A" ["B", "C"]) = [("A", "B")] := by decide
example : generate_plan_parameters exDb exQueryThree none =
    .ok [(("R", "S"),
      min (filtered_card exDb exQueryThree "R" / (exDb.mcf exColR : ℚ))
        (filtered_card exDb exQueryThree "S" / (exDb.mcf exColS : ℚ)) *
        (exDb.mcf exColR : ℚ) * (exDb.mcf exColS : ℚ))] := rfl

/-- On the success path — two tables, a connecting predicate, one join
column per side, both frequencies nonzero — `calculate_estimate` returns
exactly the upper-bound formula of the source. -/
theorem calculate_estimate_success (db : Database) (q : SqlQuery) (a b : Table)
    (jp : JoinPredicate) (ca cb : ColumnReference)
    (hj : joinsBetween q a b = some jp)
    (hca : jp.columnsOf a = [ca]) (hcb : jp.columnsOf b = [cb])
    (hfa : db.mcf ca ≠ 0) (hfb : db.mcf cb ≠ 0) :
    calculate_estimate db q [a, b] =
      .ok (.value (min (filtered_card db q a / (db.mcf ca : ℚ))
        (filtered_card db q b / (db.mcf cb : ℚ)) *
        (db.mcf ca : ℚ) * (db.mcf cb : ℚ))) := by
  simp [calculate_estimate, hj, hca, hcb, simplify, hfa, hfb]

/-- An error reported by `simplify` is always the ambiguity signal. -/
theorem simplify_error_eq {α : Type} {l : List α} {e : PbError}
    (h : simplify l = .error e) : e = .ambiguousColumn := by
  unfold simplify at h
  split at h
  · exact absurd h (by simp)
  · exact (Except.error.inj h).symm

/-- `joins_between` is symmetric in its two tables: the search predicate is
a commutative conjunction. -/
theorem joinsBetween_comm (q : SqlQuery) (a b : Table) :
    joinsBetween q a b = joinsBetween q b a := by
  have h : (fun p : JoinPredicate => p.references a && p.references b)
      = (fun p : JoinPredicate => p.references b && p.references a) :=
    funext fun p => Bool.and_comm _ _
  rw [joinsBetween, joinsBetween, h]

/-- Swapping the two tables leaves `calculate_estimate` unchanged: the
unknown cases, the error cases, and the min-based formula are all
symmetric. -/
theorem calculate_estimate_comm (db : Database) (q : SqlQuery) (a b : Table) :
    calculate_estimate db q [a, b] = calculate_estimate db q [b, a] := by
  rw [calculate_estimate, calculate_estimate, joinsBetween_comm q a b]
  cases hj : joinsBetween q b a with
  | none => rfl
  | some jp =>
    cases hsa : simplify (jp.columnsOf a) with
    | error ea =>
      cases hsb : simplify (jp.columnsOf b) with
      | error eb => simp [hsa, hsb, simplify_error_eq hsa, simplify_error_eq hsb]
      | ok cb => simp [hsa, hsb]
    | ok ca =>
      cases hsb : simplify (jp.columnsOf b) with
      | error eb => simp [hsa, hsb]
      | ok cb =>
        by_cases hfa : db.mcf ca = 0 <;> by_cases hfb : db.mcf cb = 0 <;>
          simp [hsa, hsb, hfa, hfb]
        rw [min_comm]
        ring

/-- The loop body of `generate_plan_parameters` behaves exactly like
`calculate_estimate` on the pair: same skip on a missing predicate, same
exceptions, same upper bound inserted as hint. -/
theorem processPair_eq_estimate (db : Database) (q : SqlQuery)
    (params : PlanParameterization) (pair : Table × Table) :
    processPair db q params pair =
      match calculate_estimate db q [pair.1, pair.2] with
      | .error e => .error e
      | .ok .unknown => .ok params
      | .ok (.value v) => .ok (add_cardinality_hint params pair v) := by
  rw [processPair, calculate_estimate]
  cases hj : joinsBetween q pair.1 pair.2 with
  | none => rfl
  | some jp =>
    cases hsa : simplify (jp.columnsOf pair.1) with
    | error ea => simp [hsa]
    | ok ca =>
      cases hsb : simplify (jp.columnsOf pair.2) with
      | error eb => simp [hsa, hsb]
      | ok cb =>
        by_cases hfa : db.mcf ca = 0 <;> by_cases hfb : db.mcf cb = 0 <;>
          simp [hsa, hsb, hfa, hfb]

/-- The explicit loop of `generate_plan_parameters` and the
`calculate_estimate`-delegating fold agree on every candidate list and
every accumulator. -/
theorem processAll_eq_derivedProcessAll (db : Database) (q : SqlQuery)
    (pairs : List (Table × Table)) :
    ∀ params : PlanParameterization,
      processAll db q pairs params = derivedProcessAll db q pairs params := by
  induction pairs with
  | nil => intro params; rfl
  | cons p rest ih =>
    intro params
    rw [processAll, derivedProcessAll, processPair_eq_estimate]
    cases calculate_estimate db q [p.1, p.2] with
    | error e => rfl
    | ok c =>
      cases c with
      | unknown => exact ih params
      | value v => exact ih _

/-- Hints accumulate by appending, so a lookup falls through to the later
hints only when the earlier ones miss. -/
theorem lookupPair_append (params more : PlanParameterization) (a b : Table) :
    lookupPair (params ++ more) a b =
      (lookupPair params a b).or (lookupPair more a b) := by
  rw [lookupPair, lookupPair, lookupPair, List.find?_append]
  cases params.find? fun e => (e.1.1 == a && e.1.2 == b) || (e.1.1 == b && e.1.2 == a) with
  | none => simp
  | some e => simp

/-- A single stored hint is found when its key is the requested pair in
either orientation. -/
theorem lookupPair_single_of_match (x y a b : Table) (w : ℚ)
    (h : (x = a ∧ y = b) ∨ (x = b ∧ y = a)) :
    lookupPair [((x, y), w)] a b = some w := by
  rcases h with ⟨h1, h2⟩ | ⟨h1, h2⟩ <;> subst h1 <;> subst h2 <;> simp [lookupPair]

/-- A single stored hint is missed when its key is not the requested pair
in either orientation. -/
theorem lookupPair_single_of_no_match (x y a b : Table) (w : ℚ)
    (h : ¬((x = a ∧ y = b) ∨ (x = b ∧ y = a))) :
    lookupPair [((x, y), w)] a b = none := by
  have hcond : ¬((((x, y), w).1.1 == a && ((x, y), w).1.2 == b) ||
      (((x, y), w).1.1 == b && ((x, y), w).1.2 == a)) = true := by
    simpa using h
  rw [lookupPair, List.find?_singleton, if_neg hcond]
  rfl

/-- A numeric estimate for a pair implies a join predicate connects it. -/
theorem estimate_value_imp_joins (db : Database) (q : SqlQuery) (x y : Table)
    (w : ℚ) (h : calculate_estimate db q [x, y] = .ok (.value w)) :
    joinsBetween q x y ≠ none := by
  intro hn
  rw [calculate_estimate, hn] at h
  simp at h

/-- Each loop iteration only appends hints, so a hint already present
survives the remaining iterations. -/
theorem processAll_preserves_lookup (db : Database) (q : SqlQuery)
    (pairs : List (Table × Table)) :
    ∀ (params ps : PlanParameterization) (a b : Table) (v : ℚ),
      processAll db q pairs params = .ok ps →
      lookupPair params a b = some v → lookupPair ps a b = some v := by
  induction pairs with
  | nil =>
    intro params ps a b v hrun hl
    exact Except.ok.inj hrun ▸ hl
  | cons p rest ih =>
    intro params ps a b v hrun hl
    rw [processAll, processPair_eq_estimate] at hrun
    cases hest : calculate_estimate db q [p.1, p.2] with
    | error e => rw [hest] at hrun; exact Except.noConfusion hrun
    | ok c =>
      rw [hest] at hrun
      cases c with
      | unknown => exact ih params ps a b v hrun hl
      | value w =>
        refine ih _ ps a b v hrun ?_
        rw [add_cardinality_hint, lookupPair_append, hl]
        rfl

/-- If no join predicate connects a pair, the loop never inserts a hint
for it: the pair stays absent. -/
theorem processAll_absent_lookup (db : Database) (q : SqlQuery) (a b : Table)
    (hnone : joinsBetween q a b = none) (pairs : List (Table × Table)) :
    ∀ params ps : PlanParameterization,
      processAll db q pairs params = .ok ps →
      lookupPair params a b = none → lookupPair ps a b = none := by
  induction pairs with
  | nil =>
    intro params ps hrun hl
    exact Except.ok.inj hrun ▸ hl
  | cons p rest ih =>
    intro params ps hrun hl
    rw [processAll, processPair_eq_estimate] at hrun
    cases hest : calculate_estimate db q [p.1, p.2] with
    | error e => rw [hest] at hrun; exact Except.noConfusion hrun
    | ok c =>
      rw [hest] at hrun
      cases c with
      | unknown => exact ih params ps hrun hl
      | value w =>
        refine ih _ ps hrun ?_
        rw [add_cardinality_hint, lookupPair_append, hl, Option.none_or]
        apply lookupPair_single_of_no_match
        intro hmatch
        have hj : joinsBetween q p.1 p.2 = none := by
          rcases hmatch with ⟨h1, h2⟩ | ⟨h1, h2⟩
          · rw [h1, h2]; exact hnone
          · rw [h1, h2, joinsBetween_comm]; exact hnone
        exact estimate_value_imp_joins db q p.1 p.2 w hest hj

/-- A pair in the candidate list whose estimate is a numeric value ends up
with exactly that value as its hint. -/
theorem processAll_present_lookup (db : Database) (q : SqlQuery) (a b : Table)
    (v : ℚ) (hv : calculate_estimate db q [a, b] = .ok (.value v))
    (pairs : List (Table × Table)) :
    ∀ params ps : PlanParameterization,
      processAll db q pairs params = .ok ps →
      (a, b) ∈ pairs →
      lookupPair params a b = none →
      lookupPair ps a b = some v := by
  induction pairs with
  | nil => intro params ps _ hmem _; exact absurd hmem (List.not_mem_nil _)
  | cons p rest ih =>
    intro params ps hrun hmem hl
    rw [processAll, processPair_eq_estimate] at hrun
    by_cases hmatch : (p.1 = a ∧ p.2 = b) ∨ (p.1 = b ∧ p.2 = a)
    · have hpv : calculate_estimate db q [p.1, p.2] = .ok (.value v) := by
        rcases hmatch with ⟨h1, h2⟩ | ⟨h1, h2⟩
        · rw [h1, h2]; exact hv
        · rw [h1, h2, calculate_estimate_comm]; exact hv
      rw [hpv] at hrun
      refine processAll_preserves_lookup db q rest _ ps a b v hrun ?_
      rw [add_cardinality_hint, lookupPair_append, hl, Option.none_or]
      exact lookupPair_single_of_match p.1 p.2 a b v hmatch
    · have hmem2 : (a, b) ∈ rest := by
        cases hmem with
        | head => exact absurd (Or.inl ⟨rfl, rfl⟩) hmatch
        | tail _ h => exact h
      cases hest : calculate_estimate db q [p.1, p.2] with
      | error e => rw [hest] at hrun; exact Except.noConfusion hrun
      | ok c =>
        rw [hest] at hrun
        cases c with
        | unknown => exact ih params ps hrun hmem2 hl
        | value w =>
          refine ih _ ps hrun hmem2 ?_
          rw [add_cardinality_hint, lookupPair_append, hl, Option.none_or]
          exact lookupPair_single_of_no_match p.1 p.2 a b w hmatch

/-- Growing a left-deep tree above an existing join adds only compound
joins (their left child is itself a join), so the base-join pairs stay
those of the seed join. -/
theorem basePairs_leftDeep_fold (ts : List Table) :
    ∀ l r : JoinTree,
      basePairs (ts.foldl (fun acc u => .join acc (.leaf u)) (.join l r)) =
        basePairs (.join l r) := by
  induction ts with
  | nil => intro l r; rfl
  | cons u us ih =>
    intro l r
    rw [List.foldl_cons]
    rw [ih (.join l r) (.leaf u)]
    rw [basePairs, basePairs, JoinTree.iterjoins]
    rw [List.filterMap_append, List.filterMap_append]
    simp [JoinTree.iterjoins]

/-- A left-deep join order over at least two base tables has exactly one
base join: the bottom-most one, pairing the first two tables. -/
theorem basePairs_leftDeep (t u : Table) (ts : List Table) :
    basePairs (leftDeep t (u :: ts)) = [(t, u)] := by
  rw [leftDeep, List.foldl_cons]
  rw [basePairs_leftDeep_fold ts (.leaf t) (.leaf u)]
  rfl

/-- A tree none of whose joins is a base join contributes no pairs. -/
theorem basePairs_eq_nil_of_no_base (jt : JoinTree)
    (h : ∀ j ∈ jt.iterjoins, j.isBaseJoin = false) : basePairs jt = [] := by
  rw [basePairs, List.filterMap_eq_nil_iff]
  intro j hj
  have hb := h j hj
  cases j with
  | leaf t => rfl
  | join l r =>
    cases l with
    | leaf a =>
      cases r with
      | leaf b => rw [JoinTree.isBaseJoin] at hb; exact absurd hb (by simp)
      | join r1 r2 => rfl
    | join l1 l2 => rfl

/-- For a two-table input, the unknown sentinel comes out exactly when no
join predicate connects the pair: every other outcome is an exception or a
numeric value. -/
theorem estimate_pair_unknown_iff (db : Database) (q : SqlQuery) (a b : Table) :
    calculate_estimate db q [a, b] = .ok .unknown ↔ joinsBetween q a b = none := by
  constructor
  · intro h
    cases hj : joinsBetween q a b with
    | none => rfl
    | some jp =>
      cases hsa : simplify (jp.columnsOf a) with
      | error ea => simp [calculate_estimate, hj, hsa] at h
      | ok ca =>
        cases hsb : simplify (jp.columnsOf b) with
        | error eb => simp [calculate_estimate, hj, hsa, hsb] at h
        | ok cb =>
          by_cases hfa : db.mcf ca = 0
          · simp [calculate_estimate, hj, hsa, hsb, hfa] at h
          · by_cases hfb : db.mcf cb = 0
            · simp [calculate_estimate, hj, hsa, hsb, hfa, hfb] at h
            · simp [calculate_estimate, hj, hsa, hsb, hfa, hfb] at h
  · intro h
    rw [calculate_estimate, h]

/-- C1: for every two-table equi-join pair with a single join column per
side (frequencies nonzero, as the divisions in the formula presuppose),
`calculate_estimate` returns
min(card_lhs / freq_lhs, card_rhs / freq_rhs) * freq_lhs * freq_rhs;
in particular, for filtered cardinalities 500 and 2000 and frequencies 5
and 10 the result is 5000. -/
theorem calculate_estimate_min_formula :
    (∀ (db : Database) (q : SqlQuery) (a b : Table) (jp : JoinPredicate)
        (ca cb : ColumnReference),
      joinsBetween q a b = some jp →
      jp.columnsOf a = [ca] → jp.columnsOf b = [cb] →
      db.mcf ca ≠ 0 → db.mcf cb ≠ 0 →
      calculate_estimate db q [a, b] =
        .ok (.value (min (filtered_card db q a / (db.mcf ca : ℚ))
          (filtered_card db q b / (db.mcf cb : ℚ)) *
          (db.mcf ca : ℚ) * (db.mcf cb : ℚ)))) ∧
    calculate_estimate exDb exQuery ["R", "S"] = .ok (.value 5000) := by
  constructor
  · intro db q a b jp ca cb hj hca hcb hfa hfb
    exact calculate_estimate_success db q a b jp ca cb hj hca hcb hfa hfb
  · have h := calculate_estimate_success exDb exQuery "R" "S" exPredicate exColR exColS
      (by decide) (by decide) (by decide) (by decide) (by decide)
    have e1 : exDb.mcf exColR = 5 := rfl
    have e2 : exDb.mcf exColS = 10 := rfl
    have e3 : filtered_card exDb exQuery "R" = 500 := rfl
    have e4 : filtered_card exDb exQuery "S" = 2000 := rfl
    rw [h, e1, e2, e3, e4]
    norm_num [min_def]

/-- Witness for C1 at the concrete scenario of the design document: the success hypotheses
hold for exDb and exQuery, and the formula is returned. -/
theorem calculate_estimate_min_formula_witness :
    calculate_estimate exDb exQuery ["R", "S"] =
      .ok (.value (min (filtered_card exDb exQuery "R" / (exDb.mcf exColR : ℚ))
        (filtered_card exDb exQuery "S" / (exDb.mcf exColS : ℚ)) *
        (exDb.mcf exColR : ℚ) * (exDb.mcf exColS : ℚ))) :=
  calculate_estimate_min_formula.1 exDb exQuery "R" "S" exPredicate exColR exColS
    (by decide) (by decide) (by decide) (by decide) (by decide)

/-- C2 (amended): a most-common-value frequency of 0 is not guarded: the
estimator reaches the division and raises ZeroDivisionError instead of
returning Cardinality 0. -/
theorem calculate_estimate_zero_mcf_raises
    (db : Database) (q : SqlQuery) (a b : Table) (jp : JoinPredicate)
    (ca cb : ColumnReference)
    (hj : joinsBetween q a b = some jp)
    (hca : jp.columnsOf a = [ca]) (hcb : jp.columnsOf b = [cb])
    (hzero : db.mcf ca = 0 ∨ db.mcf cb = 0) :
    calculate_estimate db q [a, b] = .error .divisionByZero := by
  rcases hzero with h0 | h0
  · simp [calculate_estimate, hj, hca, hcb, simplify, h0]
  · by_cases hfa : db.mcf ca = 0 <;>
      simp [calculate_estimate, hj, hca, hcb, simplify, hfa, h0]

/-- Counterexample to C2 as stated: with frequency 0 on both join columns
the estimator raises ZeroDivisionError; it does not return Cardinality 0
and there is no zero guard. -/
theorem zero_mcf_counterexample :
    calculate_estimate exDbZero exQuery ["R", "S"] = .error .divisionByZero ∧
    calculate_estimate exDbZero exQuery ["R", "S"] ≠ .ok (.value 0) := by decide

/-- Witness for the amended statement of C2 at the zero-frequency database. -/
theorem calculate_estimate_zero_mcf_raises_witness :
    calculate_estimate exDbZero exQuery ["R", "S"] = .error .divisionByZero :=
  calculate_estimate_zero_mcf_raises exDbZero exQuery "R" "S" exPredicate
    exColR exColS (by decide) (by decide) (by decide) (Or.inl (by decide))

/-- C3 (amended): the unknown sentinel is returned exactly when the input
is not a two-table set or no join predicate connects the two tables; a
predicate with more than one column on a side makes the estimator raise
the ambiguity error instead of returning unknown. -/
theorem calculate_estimate_unknown_iff (db : Database) (q : SqlQuery)
    (ts : List Table) :
    calculate_estimate db q ts = .ok .unknown ↔
      (match ts with
       | [a, b] => joinsBetween q a b = none
       | _ => True) := by
  cases ts with
  | nil => simp [calculate_estimate]
  | cons a ts1 =>
    cases ts1 with
    | nil => simp [calculate_estimate]
    | cons b ts2 =>
      cases ts2 with
      | cons c rest => simp [calculate_estimate]
      | nil =>
        show calculate_estimate db q [a, b] = .ok .unknown ↔ joinsBetween q a b = none
        exact estimate_pair_unknown_iff db q a b

/-- Counterexample to C3 as stated: a predicate referencing two columns of
one side makes the estimator raise the ambiguity error, not return the
unknown sentinel. -/
theorem ambiguous_predicate_counterexample :
    calculate_estimate exDb exQueryAmb ["R", "S"] = .error .ambiguousColumn ∧
    calculate_estimate exDb exQueryAmb ["R", "S"] ≠ .ok .unknown := by decide

/-- Counterexample to C4 as stated: a left-deep join order over N = 3 base
tables yields exactly 1 base-join pair, not N − 1 = 2. -/
theorem leftDeep_three_tables_counterexample :
    (basePairs (leftDeep "A" ["B", "C"])).length = 1 ∧
    (basePairs (leftDeep "A" ["B", "C"])).length ≠ 3 - 1 := by decide

/-- C4 (amended): ordered-mode traversal of a left-deep join order over at
least two base tables yields exactly one base-join pair (only the
bottom-most join has two leaf children), and a join order whose joins are
all compound yields zero pairs. -/
theorem basePairs_leftDeep_count :
    (∀ (t u : Table) (ts : List Table),
      (basePairs (leftDeep t (u :: ts))).length = 1) ∧
    (∀ jt : JoinTree, (∀ j ∈ jt.iterjoins, j.isBaseJoin = false) →
      basePairs jt = []) := by
  constructor
  · intro t u ts
    rw [basePairs_leftDeep]
    rfl
  · exact basePairs_eq_nil_of_no_base

/-- Witness for the amended statement of C4: a two-table left-deep order and
the join-free tree. -/
theorem basePairs_leftDeep_count_witness :
    (basePairs (leftDeep "A" ["B"])).length = 1 ∧
    basePairs (JoinTree.leaf "A") = [] :=
  ⟨basePairs_leftDeep_count.1 "A" "B" [],
   basePairs_leftDeep_count.2 (JoinTree.leaf "A") (by decide)⟩

/-- C5: the explicit `generate_plan_parameters` loop is equivalent to
deriving the plan parameters from `calculate_estimate` over the same
join-tree walk, for every database, query and optional join order. -/
theorem generate_plan_parameters_eq_derived (db : Database) (q : SqlQuery)
    (jo : Option JoinTree) :
    generate_plan_parameters db q jo = derived_plan_parameters db q jo := by
  rw [generate_plan_parameters, derived_plan_parameters,
    processAll_eq_derivedProcessAll]

/-- C6: in a successful run of `generate_plan_parameters`, a candidate
pair whose estimate is the unknown sentinel is absent from the returned
parameterization (never inserted as zero), while a candidate pair with a
numeric estimate is present with exactly that value. -/
theorem generate_plan_parameters_lookup (db : Database) (q : SqlQuery)
    (jo : Option JoinTree) (ps : PlanParameterization) (a b : Table)
    (hgen : generate_plan_parameters db q jo = .ok ps) :
    (calculate_estimate db q [a, b] = .ok .unknown →
      lookupPair ps a b = none) ∧
    (∀ v : ℚ, calculate_estimate db q [a, b] = .ok (.value v) →
      (a, b) ∈ planCandidates q jo → lookupPair ps a b = some v) := by
  constructor
  · intro hunk
    have hnone : joinsBetween q a b = none :=
      (estimate_pair_unknown_iff db q a b).mp hunk
    exact processAll_absent_lookup db q a b hnone (planCandidates q jo)
      PlanParameterization.empty ps hgen rfl
  · intro v hv hmem
    exact processAll_present_lookup db q a b v hv (planCandidates q jo)
      PlanParameterization.empty ps hgen hmem rfl

/-- Witness for C6: for the three-table query only (R, S) is connected;
its bound is present in the produced parameterization. -/
theorem generate_plan_parameters_lookup_witness :
    lookupPair exParams "R" "S" = some exBound :=
  (generate_plan_parameters_lookup exDb exQueryThree none exParams "R" "S"
    rfl).2 exBound rfl (by decide)

/-- C7: on a valid equi-join pair (nonzero frequencies, non-negative
filtered cardinalities) the computed bound is non-negative, and raising
the filtered cardinality of either side while keeping both frequencies fixed
never lowers it. -/
theorem calculate_estimate_nonneg_monotone
    (db db2 : Database) (q : SqlQuery) (a b : Table) (jp : JoinPredicate)
    (ca cb : ColumnReference)
    (hj : joinsBetween q a b = some jp)
    (hca : jp.columnsOf a = [ca]) (hcb : jp.columnsOf b = [cb])
    (hfa : db.mcf ca ≠ 0) (hfb : db.mcf cb ≠ 0)
    (hmcf : db2.mcf = db.mcf)
    (ha0 : 0 ≤ filtered_card db q a) (hb0 : 0 ≤ filtered_card db q b)
    (hmona : filtered_card db q a ≤ filtered_card db2 q a)
    (hmonb : filtered_card db q b ≤ filtered_card db2 q b) :
    ∃ v v2 : ℚ,
      calculate_estimate db q [a, b] = .ok (.value v) ∧
      calculate_estimate db2 q [a, b] = .ok (.value v2) ∧
      0 ≤ v ∧ v ≤ v2 := by
  have h1 := calculate_estimate_success db q a b jp ca cb hj hca hcb hfa hfb
  have hfa2 : db2.mcf ca ≠ 0 := by rw [hmcf]; exact hfa
  have hfb2 : db2.mcf cb ≠ 0 := by rw [hmcf]; exact hfb
  have h2 := calculate_estimate_success db2 q a b jp ca cb hj hca hcb hfa2 hfb2
  rw [hmcf] at h2
  have hca0 : (0 : ℚ) ≤ (db.mcf ca : ℚ) := Nat.cast_nonneg _
  have hcb0 : (0 : ℚ) ≤ (db.mcf cb : ℚ) := Nat.cast_nonneg _
  have hcap : (0 : ℚ) < (db.mcf ca : ℚ) := by
    exact_mod_cast Nat.pos_of_ne_zero hfa
  have hcbp : (0 : ℚ) < (db.mcf cb : ℚ) := by
    exact_mod_cast Nat.pos_of_ne_zero hfb
  refine ⟨_, _, h1, h2, ?_, ?_⟩
  · have hmin : 0 ≤ min (filtered_card db q a / (db.mcf ca : ℚ))
        (filtered_card db q b / (db.mcf cb : ℚ)) :=
      le_min (div_nonneg ha0 hca0) (div_nonneg hb0 hcb0)
    exact mul_nonneg (mul_nonneg hmin hca0) hcb0
  · have hstep : min (filtered_card db q a / (db.mcf ca : ℚ))
        (filtered_card db q b / (db.mcf cb : ℚ)) ≤
        min (filtered_card db2 q a / (db.mcf ca : ℚ))
          (filtered_card db2 q b / (db.mcf cb : ℚ)) :=
      min_le_min ((div_le_div_iff_of_pos_right hcap).mpr hmona)
        ((div_le_div_iff_of_pos_right hcbp).mpr hmonb)
    exact mul_le_mul_of_nonneg_right (mul_le_mul_of_nonneg_right hstep hca0) hcb0

/-- Witness for C7: growing the filtered cardinalities from (500, 2000) to
(600, 3000) with frequencies (5, 10) fixed keeps the bound non-negative
and non-decreasing. -/
theorem calculate_estimate_nonneg_monotone_witness :
    ∃ v v2 : ℚ,
      calculate_estimate exDb exQuery ["R", "S"] = .ok (.value v) ∧
      calculate_estimate exDbBig exQuery ["R", "S"] = .ok (.value v2) ∧
      0 ≤ v ∧ v ≤ v2 :=
  calculate_estimate_nonneg_monotone exDb exDbBig exQuery "R" "S" exPredicate
    exColR exColS (by decide) (by decide) (by decide) (by decide) (by decide)
    rfl (by decide) (by decide) (by decide) (by decide)

/-- C8: when both join columns have most-common-value frequency 1, the
bound collapses to the smaller of the two filtered cardinalities. -/
theorem calculate_estimate_unit_mcf_min
    (db : Database) (q : SqlQuery) (a b : Table) (jp : JoinPredicate)
    (ca cb : ColumnReference)
    (hj : joinsBetween q a b = some jp)
    (hca : jp.columnsOf a = [ca]) (hcb : jp.columnsOf b = [cb])
    (hfa : db.mcf ca = 1) (hfb : db.mcf cb = 1) :
    calculate_estimate db q [a, b] =
      .ok (.value (min (filtered_card db q a) (filtered_card db q b))) := by
  have h := calculate_estimate_success db q a b jp ca cb hj hca hcb
    (by rw [hfa]; exact one_ne_zero) (by rw [hfb]; exact one_ne_zero)
  rw [h, hfa, hfb]
  norm_num

/-- Witness for C8 with unit frequencies on both sides. -/
theorem calculate_estimate_unit_mcf_min_witness :
    calculate_estimate exDbOne exQuery ["R", "S"] =
      .ok (.value (min (filtered_card exDbOne exQuery "R")
        (filtered_card exDbOne exQuery "S"))) :=
  calculate_estimate_unit_mcf_min exDbOne exQuery "R" "S" exPredicate
    exColR exColS (by decide) (by decide) (by decide) rfl rfl

/-- C9: `select_physical_operators` returns the same fixed assignment for
every query and join order: nested-loop disabled, hash enabled, sort-merge
disabled. -/
theorem select_physical_operators_constant :
    ∀ (q q2 : SqlQuery) (jo jo2 : Option JoinTree),
      select_physical_operators q jo = select_physical_operators q2 jo2 ∧
      operatorEnabled (select_physical_operators q jo) .NestedLoopJoin = some false ∧
      operatorEnabled (select_physical_operators q jo) .HashJoin = some true ∧
      operatorEnabled (select_physical_operators q jo) .SortMergeJoin = some false :=
  fun _ _ _ _ => ⟨rfl, rfl, rfl, rfl⟩

/-- C10: `calculate_estimate` is symmetric in its two tables: both the
sentinel and error cases and the min-based formula are unchanged by
swapping the pair. -/
theorem calculate_estimate_symmetric (db : Database) (q : SqlQuery)
    (a b : Table) :
    calculate_estimate db q [a, b] = calculate_estimate db q [b, a] :=
  calculate_estimate_comm db q a b
